import Mathlib

/-!
Verification development for the `session` package (nstott/gosessions):
a server-side in-memory session store with a sweeping eviction pass,
typed accessors `Get`/`Set` backed by runtime reflection, a request-binding
middleware handler, and a `/dev/urandom`-based identifier generator.

The Go code is embedded shallowly:
* Go `map[string]T` becomes an association list with overwrite-on-insert;
* `interface{}` values stored in a session become the sum type `Val`
  (the scalar and string types the package documentation exercises);
* effectful inputs (`time.Seconds()`, the `/dev/urandom` read, the cookie
  value of the request) become explicit parameters;
* a call that panics at runtime (`reflect.Value.Set` on a type mismatch)
  returns `none`.
-/

namespace GoSessions

/-- Runtime types of values the package stores in a session
(`interface{}` payloads: the scalars and strings the package docs use). -/
inductive GoTy where
  | tint : GoTy
  | tbool : GoTy
  | tstr : GoTy
deriving DecidableEq

/-- A type-erased Go value (`interface{}`) as stored in `Session.data`. -/
inductive Val where
  | vint : Int → Val
  | vbool : Bool → Val
  | vstr : String → Val
deriving DecidableEq

/-- The dynamic (reflected) type of a stored value. -/
def Val.ty : Val → GoTy
  | .vint _ => .tint
  | .vbool _ => .tbool
  | .vstr _ => .tstr

/-- Association-list lookup, embedding Go `m[k]` with its `ok` flag
(`none` is `ok == false`). -/
def lookupA {α : Type} : List (String × α) → String → Option α
  | [], _ => none
  | (k2, v) :: rest, k => if k2 = k then some v else lookupA rest k

/-- Association-list overwrite-or-insert, embedding Go `m[k] = v`. -/
def insertA {α : Type} : List (String × α) → String → α → List (String × α)
  | [], k, v => [(k, v)]
  | (k2, v2) :: rest, k, v =>
      if k2 = k then (k, v) :: rest else (k2, v2) :: insertA rest k v

/-- `sessionCookieName` constant from the source. -/
def sessionCookieName : String := "twisterSess"

/-- `sessionValidSeconds` constant from the source: the validity window. -/
def sessionValidSeconds : Int := 1440

/-- The `Session` struct: user data, identifier, last-saved timestamp
(fields in source order: `data`, `id`, `timestamp`). -/
structure Session where
  data : List (String × Val)
  id : String
  timestamp : Int
deriving DecidableEq

/-- The `memoryStore.store` field: `map[string]*Session`. -/
abbrev Store := List (String × Session)

/-- Hexadecimal digit character, as produced by Go `%x` (lowercase). -/
def hexDigit (n : Nat) : Char :=
  if n < 10 then Char.ofNat (48 + n) else Char.ofNat (87 + n)

/-- The two hex characters Go `%x` prints for one byte of a `[]byte`. -/
def hexByteChars (b : Nat) : List Char :=
  [hexDigit (b % 256 / 16), hexDigit (b % 16)]

/-- Go `fmt.Sprintf("%x", bs)` on a byte slice: two lowercase hex digits
per byte. -/
def hexBytes (l : List Nat) : String :=
  ⟨(l.map hexByteChars).flatten⟩

/-- The `uuid` function. The entropy parameter models the 16 bytes read
from `/dev/urandom`: `none` means opening or reading the device failed,
in which case the function returns the empty string; `some b` is the
byte slice read. The five groups are the slices `b[0:4]`, `b[4:6]`,
`b[6:8]`, `b[8:10]`, `b[10:]`. -/
def uuid (entropy : Option (List Nat)) : String :=
  match entropy with
  | none => ""
  | some b =>
      hexBytes (b.take 4) ++ "-" ++ hexBytes ((b.drop 4).take 2) ++ "-" ++
      hexBytes ((b.drop 6).take 2) ++ "-" ++ hexBytes ((b.drop 8).take 2) ++ "-" ++
      hexBytes (b.drop 10)

/-- The `NewSession` constructor: fresh `uuid()` identifier, empty data,
`time.Seconds()` timestamp (passed as `now`). -/
def NewSession (entropy : Option (List Nat)) (now : Int) : Session :=
  ⟨[], uuid entropy, now⟩

/-- `memoryStore.Load`: look the cookie value up in the store; on a miss
return `NewSession()`. The method only reads the receiver, so the store
is threaded through unchanged; `cookieVal` is `req.Cookie.Get(sessionCookieName)`
(the empty string when the request carries no such cookie), and
`entropy`/`now` feed the `NewSession()` call on the miss path. -/
def Load (s : Store) (cookieVal : String) (entropy : Option (List Nat))
    (now : Int) : Session × Store :=
  match lookupA s cookieVal with
  | some sess => (sess, s)
  | none => (NewSession entropy now, s)

/-- `memoryStore.Save`: set `sess.timestamp = time.Seconds()` (passed as
`now`), store the session under `sess.id`, return `true`. The result is
the updated store, the mutated session, and the boolean return value. -/
def Save (s : Store) (sess : Session) (now : Int) : Store × Session × Bool :=
  ((insertA s sess.id ⟨sess.data, sess.id, now⟩), ⟨sess.data, sess.id, now⟩, true)

/-- One pass of the loop body of `memoryStore.Sweep`: for every
`(k, sess)` in the store, delete the entry if
`sess.timestamp + sessionValidSeconds < now`, counting deletions in `i`.
`now` is the value of `time.Seconds()` during the pass. Returns the
swept store and the deletion count `i`. -/
def sweepPass : Store → Int → Store × Nat
  | [], _ => ([], 0)
  | (k, sess) :: rest, now =>
      let r := sweepPass rest now
      if sess.timestamp + sessionValidSeconds < now then (r.1, r.2 + 1)
      else ((k, sess) :: r.1, r.2)

/-- A value occupying the request environment slot `req.Env["session"]`:
either an actual `*Session`, or a value of some other type (for which
the type assertion `.(*Session)` fails). -/
inductive EnvVal where
  | sessVal : Session → EnvVal
  | otherVal : EnvVal
deriving DecidableEq

/-- The `req.Env["session"]` slot: `none` when the key is absent. -/
abbrev Env := Option EnvVal

/-- `Get`: type-assert the environment slot to `*Session` (on failure,
return with the destination untouched); look the key up in the session
data (on a miss, return with the destination untouched); otherwise
`reflect` copies the stored value into the destination — which panics
when the stored value's runtime type is not assignable to the
destination's type. `dest` carries the destination's current value (and
thereby its type); the result is the destination's value after the
call, with `none` marking the reflect panic. -/
def Get (env : Env) (key : String) (dest : Val) : Option Val :=
  match env with
  | some (EnvVal.sessVal sess) =>
      match lookupA sess.data key with
      | none => some dest
      | some v => if v.ty = dest.ty then some v else none
  | _ => some dest

/-- `Set`: type-assert the environment slot to `*Session` (on failure
return `false`); store the value under the key in the session data and
return `true`. The result is the updated slot and the boolean return. -/
def Set (env : Env) (key : String) (value : Val) : Env × Bool :=
  match env with
  | some (EnvVal.sessVal sess) =>
      (some (EnvVal.sessVal ⟨insertA sess.data key value, sess.id, sess.timestamp⟩), true)
  | _ => (env, false)

/-- Modelled from the spec: `web.NewCookie(name, value).String()` from the
external twister library serializes "a single cookie ... whose value is
the session identifier string". -/
def newCookieString (name value : String) : String := name ++ "=" ++ value

/-- The `web.HeaderSetCookie` header name from the external twister library. -/
def HeaderSetCookie : String := "Set-Cookie"

/-- An HTTP response as seen by the respond filter: status and headers. -/
structure Response where
  status : Int
  headers : List (String × String)
deriving DecidableEq

/-- `sessionHandler.ServeWeb`: load a session for the request's cookie
value, put it in `req.Env["session"]`, run the downstream handler (which
may rewrite the environment slot and produces the response), then apply
the respond filter: if the slot still holds a `*Session`, save it and
append a `Set-Cookie` header carrying its identifier; otherwise pass
status and headers through unmodified. `handler` maps the environment
it was given to the final environment and the response it produces;
`nowL`/`nowS` are the clock readings at load and save time. -/
def ServeWeb (s : Store) (cookieVal : String) (entropy : Option (List Nat))
    (nowL nowS : Int) (handler : Env → Env × Response) : Response × Store :=
  let sess := (Load s cookieVal entropy nowL).1
  let hr := handler (some (EnvVal.sessVal sess))
  match hr.1 with
  | some (EnvVal.sessVal sess2) =>
      (⟨hr.2.status, hr.2.headers ++ [(HeaderSetCookie, newCookieString sessionCookieName sess2.id)]⟩,
       (Save s sess2 nowS).1)
  | _ => (hr.2, s)

/-! ## Helper lemmas -/

theorem lookupA_insertA {α : Type} (l : List (String × α)) (k k2 : String) (v : α) :
    lookupA (insertA l k v) k2 = if k = k2 then some v else lookupA l k2 := by
  induction l with
  | nil => simp [insertA, lookupA]
  | cons hd tl ih =>
      obtain ⟨k3, v3⟩ := hd
      simp only [insertA]
      by_cases h3 : k3 = k
      · subst h3
        simp only [if_pos rfl, lookupA]
        split_ifs <;> simp_all [lookupA]
      · simp only [if_neg h3, lookupA, ih]
        split_ifs <;> simp_all

theorem hexBytes_length (l : List Nat) : (hexBytes l).length = 2 * l.length := by
  induction l with
  | nil => rfl
  | cons b tl ih =>
      have h : (hexBytes (b :: tl)).length = 2 + (hexBytes tl).length := by
        simp [hexBytes, String.length, hexByteChars]
        omega
      rw [h, ih]
      simp [List.length_cons]
      ring

theorem sweepPass_eq_filter (s : Store) (now : Int) :
    sweepPass s now =
      (s.filter (fun kv => !decide (kv.2.timestamp + sessionValidSeconds < now)),
       (s.filter (fun kv => decide (kv.2.timestamp + sessionValidSeconds < now))).length) := by
  induction s with
  | nil => rfl
  | cons hd tl ih =>
      obtain ⟨k, sess⟩ := hd
      by_cases h : sess.timestamp + sessionValidSeconds < now <;>
        simp [sweepPass, List.filter, h, ih]

theorem filter_length_split {α : Type} (p : α → Bool) (l : List α) :
    (l.filter p).length + (l.filter (fun x => !p x)).length = l.length := by
  induction l with
  | nil => rfl
  | cons a tl ih =>
      by_cases h : p a <;> simp [List.filter, h] <;> omega

/-! ## Claims -/

/-- Claim C3: one sweep pass removes exactly those entries whose timestamp
plus the validity window (1440 seconds) is strictly less than the current
time: over a store with `N` total entries of which `M` are expired, the
pass removes exactly `M` entries (the deletion counter equals `M`) and
leaves the other `N − M` entries (the non-expired ones) in the store. -/
theorem sweep_accounting (s : Store) (now : Int) :
    (sweepPass s now).1 =
      s.filter (fun kv => !decide (kv.2.timestamp + sessionValidSeconds < now)) ∧
    (sweepPass s now).2 =
      (s.filter (fun kv => decide (kv.2.timestamp + sessionValidSeconds < now))).length ∧
    (sweepPass s now).1.length = s.length - (sweepPass s now).2 ∧
    (sweepPass s now).2 ≤ s.length := by
  have he := sweepPass_eq_filter s now
  have hl := filter_length_split
    (fun kv : String × Session => decide (kv.2.timestamp + sessionValidSeconds < now)) s
  refine ⟨by rw [he], by rw [he], ?_, ?_⟩
  · rw [he]
    simp only
    omega
  · rw [he]
    simp only
    omega

/-- Claim C5: `Save` sets the session's timestamp to the current time,
unconditionally inserts or overwrites the store entry at key `session.id`
with that session (all other keys unchanged), and returns `true`. -/
theorem save_spec (s : Store) (sess : Session) (now : Int) :
    (Save s sess now).2.2 = true ∧
    (Save s sess now).2.1.timestamp = now ∧
    (Save s sess now).2.1.id = sess.id ∧
    (Save s sess now).2.1.data = sess.data ∧
    ∀ k, lookupA (Save s sess now).1 k =
      if k = sess.id then some ⟨sess.data, sess.id, now⟩ else lookupA s k := by
  refine ⟨rfl, rfl, rfl, rfl, ?_⟩
  intro k
  show lookupA (insertA s sess.id ⟨sess.data, sess.id, now⟩) k = _
  rw [lookupA_insertA]
  by_cases h : sess.id = k
  · subst h
    simp
  · rw [if_neg h, if_neg (fun hh => h hh.symm)]

/-- Claim C1 counterexample: a store holds an entry under key `"a"` whose
timestamp plus the validity window is strictly before now (`0 + 1440 < 2000`),
so by the claim `Load` should return a freshly constructed session with a
fresh identifier and empty data; instead `Load` returns the stored, expired
session unchanged (its data is non-empty, unlike any fresh session's). -/
theorem load_expired_counterexample :
    ((0 : Int) + sessionValidSeconds < 2000) ∧
    (Load [("a", ⟨[("x", Val.vint 1)], "a", 0⟩)] "a" (some (List.replicate 16 37)) 2000).1
      = ⟨[("x", Val.vint 1)], "a", 0⟩ ∧
    (Load [("a", ⟨[("x", Val.vint 1)], "a", 0⟩)] "a" (some (List.replicate 16 37)) 2000).1
      ≠ NewSession (some (List.replicate 16 37)) 2000 ∧
    (Load [("a", ⟨[("x", Val.vint 1)], "a", 0⟩)] "a" (some (List.replicate 16 37)) 2000).1.data
      ≠ [] := by
  refine ⟨by decide, rfl, by decide, by decide⟩

/-- Claim C1 (amended): `Load` returns the Session stored under the
request's identifier-cookie value whenever that entry is present —
regardless of whether it has expired; only when no entry is present does
it return a newly constructed Session with a freshly generated identifier,
empty data, and the current timestamp. It never fails. -/
theorem load_amended (s : Store) (cv : String) (e : Option (List Nat)) (now : Int) :
    (∀ sess, lookupA s cv = some sess → (Load s cv e now).1 = sess) ∧
    (lookupA s cv = none →
      (Load s cv e now).1.id = uuid e ∧
      (Load s cv e now).1.data = [] ∧
      (Load s cv e now).1.timestamp = now) := by
  constructor
  · intro sess h
    simp [Load, h]
  · intro h
    simp [Load, h, NewSession]

/-- Witness for `load_amended` at concrete inputs: a hit returns the stored
session, a miss returns a session with the generated identifier. -/
theorem load_amended_witness :
    (Load [("a", ⟨[], "a", 5⟩)] "a" none 9).1 = ⟨[], "a", 5⟩ ∧
    (Load [] "b" none 9).1.id = uuid none := by
  exact ⟨(load_amended [("a", ⟨[], "a", 5⟩)] "a" none 9).1 ⟨[], "a", 5⟩ (by decide),
    ((load_amended [] "b" none 9).2 (by decide)).1⟩

/-- Claim C8: when the cookie value has no matching store entry, `Load`
constructs the new Session without inserting it into the mapping — the
store is unchanged, and the result is exactly the fresh session. -/
theorem load_no_insert (s : Store) (cv : String) (e : Option (List Nat)) (now : Int)
    (h : lookupA s cv = none) :
    (Load s cv e now).2 = s ∧ (Load s cv e now).1 = NewSession e now := by
  simp [Load, h]

/-- Witness for `load_no_insert`: an empty store is left untouched by a
`Load` whose cookie value misses. -/
theorem load_no_insert_witness :
    (Load [] "" none 3).2 = [] ∧ (Load [] "" none 3).1 = NewSession none 3 :=
  load_no_insert [] "" none 3 (by decide)

/-- Claim C2 counterexample: after `Set` of the string `"x"` under key
`"k"` on a bound Session, a `Get` of `"k"` into an integer destination
holding `7` does not leave the destination at its prior value — the
`reflect.Value.Set` call panics (modelled as `none`), so `Get` does fail. -/
theorem get_type_mismatch_counterexample :
    Get (Set (some (EnvVal.sessVal ⟨[], "s1", 0⟩)) "k" (Val.vstr "x")).1 "k" (Val.vint 7)
      = none ∧
    Get (Set (some (EnvVal.sessVal ⟨[], "s1", 0⟩)) "k" (Val.vstr "x")).1 "k" (Val.vint 7)
      ≠ some (Val.vint 7) := by
  exact ⟨rfl, by decide⟩

/-- Claim C2 (amended): `Get` is a silent no-op that leaves the destination
unchanged when no Session is bound or when the key is absent; but when the
value stored under the key has a runtime type incompatible with the
destination's type, `Get` panics (the reflect assignment fails) instead of
leaving the destination unchanged; on a type match it copies the stored
value into the destination. -/
theorem get_amended (env : Env) (key : String) (dest : Val) :
    ((∀ sess, env ≠ some (EnvVal.sessVal sess)) → Get env key dest = some dest) ∧
    (∀ sess, env = some (EnvVal.sessVal sess) → lookupA sess.data key = none →
      Get env key dest = some dest) ∧
    (∀ sess v, env = some (EnvVal.sessVal sess) → lookupA sess.data key = some v →
      Val.ty v ≠ Val.ty dest → Get env key dest = none) ∧
    (∀ sess v, env = some (EnvVal.sessVal sess) → lookupA sess.data key = some v →
      Val.ty v = Val.ty dest → Get env key dest = some v) := by
  refine ⟨?_, ?_, ?_, ?_⟩
  · intro hne
    match env with
    | none => rfl
    | some EnvVal.otherVal => rfl
    | some (EnvVal.sessVal sess) => exact absurd rfl (hne sess)
  · intro sess he hk
    subst he
    simp [Get, hk]
  · intro sess v he hk hty
    subst he
    simp [Get, hk, hty]
  · intro sess v he hk hty
    subst he
    simp [Get, hk, hty]

/-- Witness for `get_amended`: with no environment slot the destination is
untouched; with a string stored under the key, a `Get` into an integer
destination panics. -/
theorem get_amended_witness :
    Get none "k" (Val.vint 7) = some (Val.vint 7) ∧
    Get (some (EnvVal.sessVal ⟨[("k", Val.vstr "x")], "", 0⟩)) "k" (Val.vint 7) = none := by
  exact ⟨(get_amended none "k" (Val.vint 7)).1 (fun sess h => Option.noConfusion h),
    (get_amended (some (EnvVal.sessVal ⟨[("k", Val.vstr "x")], "", 0⟩)) "k"
        (Val.vint 7)).2.2.1 ⟨[("k", Val.vstr "x")], "", 0⟩ (Val.vstr "x") rfl (by decide)
      (by decide)⟩

/-- Claim C4: after `Set(ctx, k, v)` on a bound Session, a `Get(ctx, k, dest)`
on the same bound Session with a destination of `v`'s type succeeds and the
destination's new value is `v`. -/
theorem set_get_roundtrip (sess : Session) (k : String) (v dest : Val)
    (hty : Val.ty dest = Val.ty v) :
    Get (Set (some (EnvVal.sessVal sess)) k v).1 k dest = some v := by
  simp [Set, Get, lookupA_insertA, hty]

/-- Witness for `set_get_roundtrip`: storing the integer `5` under `"k"` and
reading it back into an integer destination yields `5`. -/
theorem set_get_roundtrip_witness :
    Get (Set (some (EnvVal.sessVal ⟨[], "", 0⟩)) "k" (Val.vint 5)).1 "k" (Val.vint 0)
      = some (Val.vint 5) :=
  set_get_roundtrip ⟨[], "", 0⟩ "k" (Val.vint 5) (Val.vint 0) rfl

/-- Claim C9: across the store and accessor operations, a session's `id`
is never changed after construction, and its `timestamp` is written only at
construction and by `Save`: `Save` preserves `id` (and `data`), `Set`
rewrites only `data`, `Load` neither alters the store nor the session it
returns, and a sweep pass only removes entries — every surviving entry is
an unmodified entry of the original store. (`Get` writes no session state
at all: its embedding returns only the destination value.) -/
theorem field_invariants (s : Store) (cv : String) (e : Option (List Nat))
    (now : Int) (sess : Session) (k : String) (v : Val) :
    ((Save s sess now).2.1.id = sess.id ∧ (Save s sess now).2.1.data = sess.data) ∧
    ((Set (some (EnvVal.sessVal sess)) k v).1
      = some (EnvVal.sessVal ⟨insertA sess.data k v, sess.id, sess.timestamp⟩)) ∧
    ((Load s cv e now).2 = s) ∧
    (∀ sess2, lookupA s cv = some sess2 → (Load s cv e now).1 = sess2) ∧
    (∀ kv, kv ∈ (sweepPass s now).1 → kv ∈ s) := by
  refine ⟨⟨rfl, rfl⟩, rfl, ?_, ?_, ?_⟩
  · rcases h : lookupA s cv with _ | sess2 <;> simp [Load, h]
  · intro sess2 h
    simp [Load, h]
  · intro kv hm
    rw [sweepPass_eq_filter] at hm
    exact List.mem_of_mem_filter hm

/-- Witness for `field_invariants`: concrete instances of the `Save`
field preservation, the `Load` hit, and the sweep-survivor membership. -/
theorem field_invariants_witness :
    (Save [] ⟨[], "a", 1⟩ 7).2.1.id = "a" ∧
    (Load [("b", ⟨[], "b", 2⟩)] "b" none 9).1 = ⟨[], "b", 2⟩ ∧
    ("b", (⟨[], "b", 2⟩ : Session)) ∈ [("b", (⟨[], "b", 2⟩ : Session))] := by
  refine ⟨(field_invariants [] "b" none 7 ⟨[], "a", 1⟩ "k" (Val.vint 0)).1.1, ?_, ?_⟩
  · exact (field_invariants [("b", ⟨[], "b", 2⟩)] "b" none 9 ⟨[], "a", 1⟩ "k"
      (Val.vint 0)).2.2.2.1 ⟨[], "b", 2⟩ (by decide)
  · exact (field_invariants [("b", ⟨[], "b", 2⟩)] "b" none 9 ⟨[], "a", 1⟩ "k"
      (Val.vint 0)).2.2.2.2 ("b", ⟨[], "b", 2⟩) (by decide)

/-- Claim C10: `Load` treats the empty string as an ordinary store key:
once a Session whose identifier is the empty string has been saved, every
request with an empty cookie value receives that stored Session (with the
save-time timestamp) rather than a fresh one; and entropy failure does
produce a Session with the empty identifier. -/
theorem empty_cookie_shared_session (s : Store) (sess : Session) (now now2 : Int)
    (e : Option (List Nat)) (hid : sess.id = "") :
    (Load (Save s sess now).1 "" e now2).1 = ⟨sess.data, sess.id, now⟩ ∧
    (NewSession none now2).id = "" := by
  constructor
  · have h : lookupA (Save s sess now).1 "" = some ⟨sess.data, sess.id, now⟩ := by
      show lookupA (insertA s sess.id ⟨sess.data, sess.id, now⟩) "" = _
      rw [lookupA_insertA, if_pos hid]
    simp [Load, h]
  · rfl

/-- Witness for `empty_cookie_shared_session`: after saving a session whose
identifier is empty, a cookie-less `Load` returns it. -/
theorem empty_cookie_shared_session_witness :
    (Load (Save [] ⟨[("u", Val.vint 3)], "", 5⟩ 7).1 "" none 9).1
      = ⟨[("u", Val.vint 3)], "", 7⟩ ∧
    (NewSession none 9).id = "" :=
  empty_cookie_shared_session [] ⟨[("u", Val.vint 3)], "", 5⟩ 7 9 none rfl

/-- Claim C7: when opening or reading the entropy source fails, `uuid`
returns the empty string (no error is signalled — the return type carries
nothing else); when 16 bytes are read, it formats them as five
hyphen-separated hexadecimal groups covering 4, 2, 2, 2 and 6 bytes
(8, 4, 4, 4 and 12 hex characters), 36 characters in total. -/
theorem uuid_spec :
    uuid none = "" ∧
    ∀ b : List Nat, b.length = 16 →
      uuid (some b) =
        hexBytes (b.take 4) ++ "-" ++ hexBytes ((b.drop 4).take 2) ++ "-" ++
        hexBytes ((b.drop 6).take 2) ++ "-" ++ hexBytes ((b.drop 8).take 2) ++ "-" ++
        hexBytes (b.drop 10) ∧
      (hexBytes (b.take 4)).length = 8 ∧
      (hexBytes ((b.drop 4).take 2)).length = 4 ∧
      (hexBytes ((b.drop 6).take 2)).length = 4 ∧
      (hexBytes ((b.drop 8).take 2)).length = 4 ∧
      (hexBytes (b.drop 10)).length = 12 ∧
      (uuid (some b)).length = 36 := by
  refine ⟨rfl, ?_⟩
  intro b hb
  have h1 : (hexBytes (b.take 4)).length = 8 := by
    rw [hexBytes_length, List.length_take, hb]
    decide
  have h2 : (hexBytes ((b.drop 4).take 2)).length = 4 := by
    rw [hexBytes_length, List.length_take, List.length_drop, hb]
    decide
  have h3 : (hexBytes ((b.drop 6).take 2)).length = 4 := by
    rw [hexBytes_length, List.length_take, List.length_drop, hb]
    decide
  have h4 : (hexBytes ((b.drop 8).take 2)).length = 4 := by
    rw [hexBytes_length, List.length_take, List.length_drop, hb]
    decide
  have h5 : (hexBytes (b.drop 10)).length = 12 := by
    rw [hexBytes_length, List.length_drop, hb]
  refine ⟨rfl, h1, h2, h3, h4, h5, ?_⟩
  show (hexBytes (b.take 4) ++ "-" ++ hexBytes ((b.drop 4).take 2) ++ "-" ++
    hexBytes ((b.drop 6).take 2) ++ "-" ++ hexBytes ((b.drop 8).take 2) ++ "-" ++
    hexBytes (b.drop 10)).length = 36
  simp [String.length_append, h1, h2, h3, h4, h5]
  decide

/-- Witness for `uuid_spec`: the identifier built from sixteen zero bytes
has length 36. -/
theorem uuid_spec_witness : (uuid (some (List.replicate 16 0))).length = 36 :=
  (uuid_spec.2 (List.replicate 16 0) (by decide)).2.2.2.2.2.2

/-- Claim C6: the middleware attaches the `Load`-ed Session to the request
environment under the session key before the downstream handler runs (the
outcome depends on the handler only through its behaviour on that
environment); after the response is produced, if the environment slot
still holds a value of the Session type, that Session is persisted via
`Save` and a `Set-Cookie` header carrying its identifier is appended to
the response headers (status preserved); if the slot does not hold a
Session, the response status and headers pass through unmodified and the
store is untouched. -/
theorem serveWeb_contract (s : Store) (cv : String) (e : Option (List Nat))
    (nowL nowS : Int) (handler : Env → Env × Response) :
    (∀ h2 : Env → Env × Response,
      h2 (some (EnvVal.sessVal (Load s cv e nowL).1))
        = handler (some (EnvVal.sessVal (Load s cv e nowL).1)) →
      ServeWeb s cv e nowL nowS h2 = ServeWeb s cv e nowL nowS handler) ∧
    (∀ sess2 resp,
      handler (some (EnvVal.sessVal (Load s cv e nowL).1))
        = (some (EnvVal.sessVal sess2), resp) →
      ServeWeb s cv e nowL nowS handler =
        (⟨resp.status,
          resp.headers ++ [(HeaderSetCookie, newCookieString sessionCookieName sess2.id)]⟩,
         (Save s sess2 nowS).1)) ∧
    (∀ env2 resp,
      handler (some (EnvVal.sessVal (Load s cv e nowL).1)) = (env2, resp) →
      (∀ sess2, env2 ≠ some (EnvVal.sessVal sess2)) →
      ServeWeb s cv e nowL nowS handler = (resp, s)) := by
  refine ⟨?_, ?_, ?_⟩
  · intro h2 hh
    simp only [ServeWeb, hh]
  · intro sess2 resp hh
    simp only [ServeWeb, hh]
  · intro env2 resp hh hne
    cases env2 with
    | none => simp only [ServeWeb, hh]
    | some ev =>
        cases ev with
        | sessVal x => exact absurd rfl (hne x)
        | otherVal => simp only [ServeWeb, hh]

/-- Witness for `serveWeb_contract`: an identity handler gets its session
saved and a `Set-Cookie` header appended; a handler that clears the
environment slot passes its response through with the store untouched. -/
theorem serveWeb_contract_witness :
    ServeWeb [] "" none 1 2 (fun env => (env, ⟨200, []⟩)) =
      (⟨200, [] ++ [(HeaderSetCookie, newCookieString sessionCookieName (uuid none))]⟩,
       (Save [] (NewSession none 1) 2).1) ∧
    ServeWeb [] "" none 1 2 (fun _ => (none, ⟨404, []⟩)) = (⟨404, []⟩, []) := by
  constructor
  · exact (serveWeb_contract [] "" none 1 2 (fun env => (env, ⟨200, []⟩))).2.1
      (NewSession none 1) ⟨200, []⟩ rfl
  · exact (serveWeb_contract [] "" none 1 2 (fun _ => (none, ⟨404, []⟩))).2.2
      none ⟨404, []⟩ rfl (fun sess2 h => Option.noConfusion h)

end GoSessions
